import Mathlib

/-
  Verification of the node-bowler client library (NeuronRobotics DyIO,
  Bowler protocol) against its natural-language specification.

  The development shallowly embeds the JavaScript sources:

  * `lib/util.js`                (make_checksum, extend)
  * `lib/bowler_device.js`       (second, current copy: BowlerDevice,
                                  build_packet, mac_address_bytes,
                                  BOWLER_METHODS_HR)
  * `lib/packet.js`              (data_types, PacketByteContainer,
                                  PacketAssembler)
  * `lib/command_handler.js`     (make_rpc_caller)
  * `lib/extra_namespaces.js`    (BowlerNamespace import_into)
  * `lib/extra_namespaces/bcs_core.js` (the _nms / _png parsers)
  * `lib/devices/nr_dyio.js`     (bowler_serial_parser framing)

  JavaScript runtime values are modelled explicitly where the code
  depends on them: `JNum` (`Option Int`, `none` = NaN) models IEEE
  numbers as they flow through the assembler's index arithmetic
  (`undefined + x` and `NaN + x` are NaN, and every comparison with
  NaN is false); `JVal` models the dynamically typed values handed to
  builder instructions; `Except JsErr` models thrown exceptions.
  `Buffer(n)` allocation is modelled as a zero list (pre-4.x Node
  allocates without throwing for non-positive and NaN sizes; each
  theorem below only reads buffer positions that the traced code has
  deterministically written or that `fill(0)` initialised).
-/

set_option autoImplicit false
set_option maxRecDepth 100000

namespace NodeBowler

/-! ## JavaScript primitives -/

/-- A JavaScript number as used by the assembler index arithmetic:
`none` is NaN (also the result of arithmetic on `undefined`). -/
abbrev JNum := Option Int

/-- JS addition: NaN propagates. -/
def jadd : JNum → JNum → JNum
  | some a, some b => some (a + b)
  | _, _ => none

/-- JS subtraction: NaN propagates. -/
def jsub : JNum → JNum → JNum
  | some a, some b => some (a - b)
  | _, _ => none

/-- JS `>` against a plain number: any comparison with NaN is false. -/
def jgt : JNum → Int → Bool
  | some a, b => a > b
  | none, _ => false

/-- A dynamically typed JavaScript value, as handed to the packet
assembler's instruction queue and to RPC callers. -/
inductive JVal where
  | undefined
  | num (n : Int)
  | str (s : String)
  | fn (id : Nat)
  | arr (bytes : List Nat)
deriving Repr, DecidableEq

/-- A thrown JavaScript exception. -/
inductive JsErr where
  | jsError (msg : String)
  | typeError (msg : String)
  | referenceError (msg : String)
  | rangeError (msg : String)
  | fuelExhausted
deriving Repr, DecidableEq

/-! ## `lib/util.js` -/

/-- Models `util.make_checksum(buff)`:
`Array.prototype.reduce` over the bytes with no initial value (a
`TypeError` on an empty buffer), then `sum & 0x000000ff`, which for a
sum of byte values is `sum % 256`. -/
def make_checksum (buff : List Nat) : Except JsErr Nat :=
  match buff with
  | [] => .error (.typeError "Reduce of empty array with no initial value")
  | b :: rest => .ok ((rest.foldl (· + ·) b) % 256)

/-! ## `lib/bowler_device.js`: constants and MAC handling

The repository file contains two concatenated copies of the module;
the second copy (the one whose line numbers the specification's claims
cite, lines 747-1429) is embedded here. -/

/-- Models `BOWLER_METHODS_HR` (human-readable method name to wire
code). -/
def BOWLER_METHODS_HR : List (String × Nat) :=
  [("status", 0x00), ("get", 0x10), ("post", 0x20), ("critical", 0x30), ("async", 0x40)]

/-- A `BOWLER_METHODS_HR[method]` property read: `undefined` for a key
that is not present. -/
def methodCodeVal (method : String) : JVal :=
  match BOWLER_METHODS_HR.lookup method with
  | some c => .num c
  | none => .undefined

/-- The `_mac_address_raw` field of a `BowlerDevice`: the string
`'broadcast'` or an array of six byte values. -/
inductive MacRaw where
  | broadcast
  | bytes (l : List Nat)
deriving Repr, DecidableEq

/-- Models the `mac_address_bytes` getter (second copy of
`bowler_device.js`, lines 1382-1398).  For `'broadcast'` the code
deliberately returns the zero (link-local) MAC: the line returning
`[255, 255, 255, 255, 255, 255]` is commented out with the remark
`use link-local instead`, and `[0, 0, 0, 0, 0, 0]` is returned. -/
def mac_address_bytes : MacRaw → List Nat
  | .broadcast => [0, 0, 0, 0, 0, 0]
  | .bytes l => l

/-- Models the `supported_namespaces_hr` getter on the default device
state `supported_namespaces = {0x00: 'bcs.core'}`: the inverse map is
built with a `for..in` loop, whose keys are strings, so the stored id
is the string `'0'`; any other name reads as `undefined`. -/
def namespaceIdVal (ns : String) : JVal :=
  if ns = "bcs.core" then .str "0" else .undefined

/-! ## `lib/packet.js`: PacketAssembler

`new PacketAssembler(offset)` keeps `this.length` (high-water mark),
`this.instructions` (deferred writes) and closes over the raw
constructor parameter `offset` in `bytes`/`byte` (`offset + start`),
so a constructor call without an argument makes every range bound
`undefined + start = NaN`. -/

/-- One deferred write instruction of the assembler.  The payload and
start offset are recorded; instructions only ever run inside
`assemble()`, which always throws (see `paAssemble`). -/
inductive PAInstr where
  | writeUInt8 (v : JVal) (start : JNum)
  | writeInt16BE (v : JVal) (start : JNum)
  | writeInt32BE (v : JVal) (start : JNum)
  | writeNullTermString (v : String) (start : JNum)
  | writeBoolByte (v : JVal) (start : JNum)
deriving Repr, DecidableEq

/-- The mutable state of a `PacketAssembler`.  `offsetJ` is the raw
constructor parameter captured by the `bytes`/`byte` closures
(`none` when the constructor was called with no argument, as
`build_packet` does for the header assembler). -/
structure PAsm where
  offsetJ : JNum
  length : Int
  instrs : List PAInstr
deriving Repr, DecidableEq

/-- Models `new PacketAssembler(offset)`. -/
def mkPAsm (offsetJ : JNum) : PAsm := { offsetJ := offsetJ, length := 0, instrs := [] }

/-- An assembler-side `ByteRange` (start and end indices, possibly
NaN). -/
structure PARange where
  startJ : JNum
  endJ : JNum
deriving Repr, DecidableEq

/-- The `length` getter of an assembler `ByteRange`:
`end - start + 1`. -/
def paRangeLen (r : PARange) : JNum := jadd (jsub r.endJ r.startJ) (some 1)

/-- Constructing a `ByteRange` on an assembler: records the bounds and
lifts the assembler's `length` when `end + 1 > length` (false whenever
`end` is NaN). -/
def paMkRange (a : PAsm) (st en : JNum) : PAsm × PARange :=
  let r : PARange := { startJ := st, endJ := en }
  match jadd en (some 1) with
  | some e1 => if e1 > a.length then ({ a with length := e1 }, r) else (a, r)
  | none => (a, r)

/-- Models `assembler.bytes(start, end)`: bounds are
`offset + start` and `offset + end` over the captured constructor
parameter. -/
def paBytes (a : PAsm) (st en : Int) : PAsm × PARange :=
  paMkRange a (jadd a.offsetJ (some st)) (jadd a.offsetJ (some en))

/-- Models `assembler.byte(start)`. -/
def paByte (a : PAsm) (st : Int) : PAsm × PARange := paBytes a st st

/-- Models `ByteRange.fromInt(val)`: dispatches on the range length
(1, 2 or 4 bytes); any other length — including the NaN length of a
range built from an `undefined` constructor offset — throws
`Cannot write ints greater than 32 bits in size!`. -/
def paFromInt (a : PAsm) (r : PARange) (v : JVal) : Except JsErr PAsm :=
  match paRangeLen r with
  | some 1 => .ok { a with instrs := a.instrs ++ [.writeUInt8 v r.startJ] }
  | some 2 => .ok { a with instrs := a.instrs ++ [.writeInt16BE v r.startJ] }
  | some 4 => .ok { a with instrs := a.instrs ++ [.writeInt32BE v r.startJ] }
  | _ => .error (.jsError "Cannot write ints greater than 32 bits in size!")

/-- Models `ByteRange.fromString(val)`: unconditionally queues a
null-terminated-string write. -/
def paFromString (a : PAsm) (r : PARange) (v : String) : PAsm :=
  { a with instrs := a.instrs ++ [.writeNullTermString v r.startJ] }

/-- Models `ByteRange.fromBool(val)`. -/
def paFromBool (a : PAsm) (r : PARange) (v : JVal) : PAsm :=
  { a with instrs := a.instrs ++ [.writeBoolByte v r.startJ] }

/-- Models the property read `range.fromRawUInt8Array`: the
`PacketAssembler` `ByteRange` defines `fromRawFunc`, `fromInt`,
`fromString`, `fromBuffer`, `fromUInt8Array`, `fromInt32Array` and
`fromBool`, but no `fromRawUInt8Array`, so calling it throws a
`TypeError`. -/
def paFromRawUInt8Array (_ : PAsm) (_ : PARange) (_ : JVal) : Except JsErr PAsm :=
  .error (.typeError "builder.bytes(...).fromRawUInt8Array is not a function")

/-- Models `PacketAssembler.append(other)`: concatenates the
instruction queues and keeps the larger `length`. -/
def paAppend (a b : PAsm) : PAsm :=
  { a with instrs := a.instrs ++ b.instrs,
           length := if a.length < b.length then b.length else a.length }

/-- Models `PacketAssembler.assemble()`.  The body is

`var buff = new Buffer(this.length); instructions.forEach(...)`

and the identifier `instructions` is bound nowhere in the module (the
field is `this.instructions`), so every call throws a
`ReferenceError`. -/
def paAssemble (_ : PAsm) : Except JsErr (List Nat) :=
  .error (.referenceError "instructions is not defined")

/-! ## `build_packet` (second copy, lines 1095-1137) -/

/-- The `bcs.core._png` body builder: `function (bldr) {}`. -/
def pngBuilder (b : PAsm) (_ : List JVal) : Except JsErr PAsm := .ok b

/-- The `bcs.core._nms` body builder:
`function (bldr, num) { bldr.byte(0).fromInt(num); }`. -/
def nmsBuilder (b : PAsm) (args : List JVal) : Except JsErr PAsm :=
  let (b1, r) := paByte b 0
  paFromInt b1 r (args.headD .undefined)

/-- The `bcs.rpc._rpc` and `bcs.rpc.args` body builders:
`bldr.byte(0).fromInt(supported_namespaces_hr[namespace]);
bldr.byte(1).fromInt(ind);`. -/
def rpcIndexBuilder (b : PAsm) (args : List JVal) : Except JsErr PAsm := do
  let (b1, r0) := paByte b 0
  let b2 ← paFromInt b1 r0
    (match args.headD .undefined with
     | .str s => namespaceIdVal s
     | _ => .undefined)
  let (b3, r1) := paByte b2 1
  paFromInt b3 r1 (args.getD 1 .undefined)

/-- The default `_builders` tree of a `BowlerDevice` (the constructor
imports the `bcs_core` and `bcs_rpc` contributions).
`resolve_namespace_path` on a path that is absent returns an `Error`
object; `build_packet` then treats that object as a multi-method map,
indexes it by the method name, obtains `undefined` and throws
`Could not find builder ...` — modelled by the `.error` branch. -/
def resolveBodyBuilder (ns rpc method : String) :
    Except JsErr (PAsm → List JVal → Except JsErr PAsm) :=
  match ns, rpc with
  | "bcs.core", "_png" => .ok pngBuilder
  | "bcs.core", "_nms" => .ok nmsBuilder
  | "bcs.rpc", "_rpc" => .ok rpcIndexBuilder
  | "bcs.rpc", "args" => .ok rpcIndexBuilder
  | _, _ =>
    .error (.jsError ("Could not find builder for the " ++ method ++
      " method for the RPC " ++ ns ++ "#" ++ rpc))

/-- Models the defaulting assignment
`namespace = namespace || 'bcs.core'` (line 1098): `none` stands for a
falsy argument. -/
def defaultedNamespace (namespaceArg : Option String) : String :=
  namespaceArg.getD "bcs.core"

/-- Models the defaulting assignment `method = method || 'get'`
(line 1099). -/
def defaultedMethod (method : Option String) : String :=
  method.getD "get"

/-- Models `BowlerDevice.prototype.build_packet(method, namespace,
command, ...args)` (second copy, lines 1095-1137) on the default
device state.  `method` and `namespace` are `Option String` with
`none` standing for a falsy argument.  The header assembler is
constructed as `new packet.PacketAssembler()` — no argument — so the
closures in `bytes`/`byte` compute `undefined + start = NaN` bounds,
and the very first `fromInt` (the protocol version byte) throws. -/
def build_packet (method namespaceArg : Option String) (command : String)
    (extraArgs : List JVal) (mac : MacRaw) : Except JsErr (List Nat) := do
  let ns := defaultedNamespace namespaceArg
  let m := defaultedMethod method
  let b0 := mkPAsm none
  let (b1, r0) := paByte b0 0
  let b2 ← paFromInt b1 r0 (.num 3)
  let (b3, rMac) := paBytes b2 1 6
  let b4 ← paFromRawUInt8Array b3 rMac (.arr (mac_address_bytes mac))
  let (b5, r7) := paByte b4 7
  let b6 ← paFromInt b5 r7 (methodCodeVal m)
  let (b7, r8) := paByte b6 8
  let b8 ← paFromInt b7 r8 (namespaceIdVal ns)
  let bodyBuilder ← resolveBodyBuilder ns command m
  let bodyAsm ← bodyBuilder (mkPAsm (some 15)) extraArgs
  let (b9, r9) := paByte b8 9
  let b10 ← paFromInt b9 r9 (.num (bodyAsm.length + 4))
  let prefixBytes ← paAssemble b10
  let ck ← make_checksum prefixBytes
  let (b11, r10) := paByte b10 10
  let b12 ← paFromInt b11 r10 (.num ck)
  let (b13, rName) := paBytes b12 11 14
  let b14 := paFromString b13 rName command
  let b15 := paAppend b14 bodyAsm
  paAssemble b15

/-- The error value every `build_packet` call throws with. -/
def sizeErr : JsErr := .jsError "Cannot write ints greater than 32 bits in size!"

example : build_packet (some "get") (some "bcs.core") "_png" [] .broadcast = .error sizeErr := rfl

example :
    (nmsBuilder (mkPAsm (some 15)) [.num 0]).map PAsm.length = .ok 16 := rfl

example : make_checksum [3, 255, 255, 255, 255, 255, 255, 16, 0, 4] = .ok 17 := rfl

/-! ## `lib/packet.js`: data_types (Int32Array entry) -/

/-- Big-endian signed 32-bit read (`buff.readInt32BE`), two's
complement.  Positions outside the buffer read as 0 here; every use
below is in bounds. -/
def readInt32BE (buff : List Nat) (ind : Nat) : Int :=
  let u : Nat := buff.getD ind 0 * 16777216 + buff.getD (ind + 1) 0 * 65536 +
    buff.getD (ind + 2) 0 * 256 + buff.getD (ind + 3) 0
  if u ≥ 2147483648 then (u : Int) - 4294967296 else (u : Int)

/-- Models `data_types.Int32Array.get_width`:
`val.length * 4 + 1`. -/
def int32ArrayGetWidth (val : List Int) : Nat := val.length * 4 + 1

/-- Models `data_types.Int32Array.deserialize(buff, ind)` on a
little-endian host (the `NATIVE_BE` branch is dead on x86/ARM hosts):
reads a one-byte element count, then `len` big-endian `Int32` values,
and reports `len*4+1` bytes consumed. -/
def int32ArrayDeserialize (buff : List Nat) (ind : Nat) : List Int × Nat :=
  let len := buff.getD ind 0
  ((List.range len).map (fun i => readInt32BE buff (ind + 1 + i * 4)), len * 4 + 1)

/-- Models `data_types.Int32Array.serialize(input, buff, ind)`.  The
function's parameter is named `input`, but its body reads
`var len = ab.length;` and `ab[i]` — and `ab` is bound nowhere in the
module — so the very first statement throws a `ReferenceError` and
nothing is ever written. -/
def int32ArraySerialize (_ : List Int) (_ : List Nat) (_ : Nat) :
    Except JsErr (List Nat × Nat) :=
  .error (.referenceError "ab is not defined")

example :
    int32ArrayDeserialize [3, 0, 0, 0, 1, 255, 255, 255, 254, 0, 0, 0, 3] 0 =
      ([1, -2, 3], 13) := by decide

/-! ## `lib/packet.js`: PacketByteContainer (read side) -/

/-- A read of `src[j]` with a JS index: positions outside the source
read as the allocated fill (0 in every trace below). -/
def srcAt (src : List Nat) (j : Int) : Nat :=
  if 0 ≤ j then src.getD j.toNat 0 else 0

/-- Models the reader-side `ByteRange(src, start, end)` constructor:
`this.buff = Buffer(end - start + 1)` followed by
`src.copy(this.buff, 0, start, end + 1)`.  A non-positive or NaN
allocation size yields an empty buffer (pre-4.x Node `Buffer`
semantics; Node ≥ 4 instead throws a `RangeError` on a negative size —
under either reading the affected parser results below are not the
claimed ones). -/
def contRange (src : List Nat) (st en : JNum) : List Nat :=
  match jadd (jsub en st) (some 1) with
  | none => []
  | some n =>
    if 0 < n then
      match st with
      | none => List.replicate n.toNat 0
      | some s => (List.range n.toNat).map (fun i => srcAt src (s + i))
    else []

/-- Models `container.bytes()` called with no arguments.  The intended
all-bytes shortcut is guarded by `if (start === end === null)`, which
associates as `(start === end) === null`; with both arguments
`undefined` that is `true === null`, i.e. `false`, so the code falls
through to `new ByteRange(this.src, undefined, undefined)`. -/
def containerBytesNoArgs (src : List Nat) : List Nat := contRange src none none

/-- Models the loose comparison `buff[stop_ind] == '\x5c0'` inside
`data_types.NullTerminatedString.deserialize`.  The right-hand side is
the one-character NUL *string*; `ToNumber` of that string is NaN (NUL
is neither string whitespace nor part of a numeric literal), and a
comparison of any number with NaN is false — so the scan never stops
at a null byte. -/
def byteEqNullStr (_ : Nat) : Bool := false

/-- The scan loop of `NullTerminatedString.deserialize`: first index
`≥ ind` whose byte passes the (never-true) null comparison, else
`buff.length`. -/
def ntsStop (buff : List Nat) (ind : Nat) : Nat :=
  match (List.range buff.length).find? (fun j => ind ≤ j && byteEqNullStr (buff.getD j 0)) with
  | some j => j
  | none => buff.length

/-- Node's `'ascii'` decoding masks each byte to 7 bits. -/
def asciiDecode (l : List Nat) : String := String.mk (l.map (fun b => Char.ofNat (b % 128)))

/-- Models `data_types.NullTerminatedString.deserialize(buff, ind)`:
returns `buff.toString('ascii', ind, stop_ind)` and the consumed count
`stop_ind - ind + 1`. -/
def ntsDeserialize (buff : List Nat) (ind : Nat) : String × Nat :=
  let stop := ntsStop buff ind
  (asciiDecode ((buff.drop ind).take (stop - ind)), stop - ind + 1)

/-- Models `String.prototype.indexOf(';')`: first index or `-1`. -/
def jsIndexOfSemi (s : String) : Int :=
  match s.toList.findIdx? (fun c => c = ';') with
  | some i => (i : Int)
  | none => -1

/-- Models the reader-side `ByteRange.toInt()`: a 1-byte range reads
`UInt8`, 2 bytes `Int16BE`, 4 bytes `Int32BE`, anything else throws. -/
def rangeToInt (buff : List Nat) : Except JsErr Int :=
  match buff.length with
  | 1 => .ok (buff.getD 0 0)
  | 2 =>
    let u := buff.getD 0 0 * 256 + buff.getD 1 0
    .ok (if u ≥ 32768 then (u : Int) - 65536 else (u : Int))
  | 4 => .ok (readInt32BE buff 0)
  | _ => .error (.jsError "Cannot read ints greater than 32 bits in size!")

/-! ## `lib/extra_namespaces/bcs_core.js`: the `_nms` response parser -/

/-- The object returned by the `_nms` parser. -/
structure NmsResult where
  raw_str : String
  name : String
  version_str : String
  num_namespaces : Int
deriving Repr, DecidableEq

/-- Models `BcsCoreNamespace.parsers._nms(src)`
(`extra_namespaces/bcs_core.js`, the copy cited by the claims):

* `all_bytes = src.bytes()` — hits the broken all-bytes guard, so the
  range has `undefined` bounds and an empty buffer;
* `raw_name = all_bytes.toString()`, `len = all_bytes.partial`;
* `name_len_with_star = raw_name.indexOf(';')`;
* `name = src.bytes(0, name_len_with_star - 3).toRawString()`;
* `version_str = src.bytes(name_len_with_star + 1, len - 4).toRawString()`;
* `num_namespaces = src.byte(len).toInt()`. -/
def nmsParse (src : List Nat) : Except JsErr NmsResult := do
  let allBytes := containerBytesNoArgs src
  let (rawName, consumedLen) := ntsDeserialize allBytes 0
  let len : Int := consumedLen
  let star : Int := jsIndexOfSemi rawName
  let nameBuff := contRange src (some 0) (some (star - 3))
  let verBuff := contRange src (some (star + 1)) (some (len - 4))
  let numBuff := contRange src (some len) (some len)
  let num ← rangeToInt numBuff
  .ok { raw_str := rawName, name := asciiDecode nameBuff,
        version_str := asciiDecode verBuff, num_namespaces := num }

/-- The reply body of the namespace-discovery scenario:
the ASCII bytes of `bcs.core;1.0.0` followed by `0x00` and `0x01`. -/
def nmsBody : List Nat :=
  [98, 99, 115, 46, 99, 111, 114, 101, 59, 49, 46, 48, 46, 48, 0, 1]

example :
    nmsParse nmsBody =
      .ok { raw_str := "", name := "", version_str := "", num_namespaces := 99 } := rfl

/-! ## `lib/devices/nr_dyio.js`: the framing parser
(`bowler_serial_parser`) -/

/-- Models `source.copy(target, targetStart, sourceStart, sourceEnd)`
on Node byte buffers: copies
`min(sourceEnd - sourceStart, target.length - targetStart,
source.length - sourceStart)` bytes and returns that count.  Reads
come from the original `source` list, which also gives the `memmove`
behaviour of an overlapping self-copy. -/
def copyBytes (src dst : List Nat) (tStart sStart sEnd : Nat) :
    List Nat × Nat :=
  let n := min (min (sEnd - sStart) (dst.length - tStart)) (src.length - sStart)
  ((List.range n).foldl (fun d i => d.set (tStart + i) (src.getD (sStart + i) 0)) dst, n)

/-- Models `buff.readUInt8(ind)`: throws a `RangeError` out of
bounds. -/
def readU8 (buff : List Nat) (ind : Nat) : Except JsErr Nat :=
  if h : ind < buff.length then .ok (buff.get ⟨ind, h⟩)
  else .error (.rangeError "index out of range")

/-- The closure state of `bowler_serial_parser()`:
`incoming_data` (255 bytes, `fill(0)`), `curr_ind`, `amt_left`,
`bowler_data` (`null` or the partially filled destination buffer) and
`amt_left_to_read`. -/
structure FrState where
  incoming : List Nat
  curr_ind : Nat
  amt_left : Nat
  dest : Option (List Nat)
  altr : Nat
deriving Repr, DecidableEq

/-- The initial framer state. -/
def frInit : FrState :=
  { incoming := List.replicate 255 0, curr_ind := 0, amt_left := 0,
    dest := none, altr := 0 }

/-- The `while (amt_left > BOWLER_SIZE_BYTE)` loop of the framer,
with `BOWLER_SIZE_BYTE = 9` and `BOWLER_HEADER_SIZE = 11`:

* with `bowler_data === null`, read the size byte at
  `curr_ind + 9` and allocate `Buffer(11 + size)`;
* if `amt_left_to_read > 0 && amt_left > 0`, copy
  `min(amt_left_to_read, amt_left)` bytes from `curr_ind` into the
  destination at `length - amt_left_to_read` and advance the cursor;
* if `amt_left_to_read === 0 && bowler_data.length > 0`, emit the
  destination and reset it to `null`.

The `fuel` argument bounds the iteration count (each productive
iteration consumes at least one buffered byte; the runs proved below
use ample fuel). -/
def frLoop : Nat → FrState → List (List Nat) →
    Except JsErr (List (List Nat) × FrState)
  | 0, _, _ => .error .fuelExhausted
  | fuel + 1, s, acc =>
    if s.amt_left > 9 then do
      let s ←
        match s.dest with
        | none => do
          let size ← readU8 s.incoming (s.curr_ind + 9)
          .ok { s with altr := 11 + size, dest := some (List.replicate (11 + size) 0) }
        | some _ => .ok s
      let s :=
        if s.altr > 0 ∧ s.amt_left > 0 then
          let d := s.dest.getD []
          let amtToRead := min s.altr s.amt_left
          let (d', _) := copyBytes s.incoming d (d.length - s.altr) s.curr_ind
            (s.curr_ind + amtToRead)
          { s with dest := some d', amt_left := s.amt_left - amtToRead,
                   curr_ind := s.curr_ind + amtToRead, altr := s.altr - amtToRead }
        else s
      match s.dest with
      | some d =>
        if s.altr = 0 ∧ d.length > 0 then
          frLoop fuel { s with dest := none } (acc ++ [d])
        else frLoop fuel s acc
      | none => frLoop fuel s acc
    else .ok (acc, s)

/-- Models one invocation of the function returned by
`bowler_serial_parser()` on a raw chunk: append the chunk at
`curr_ind` (`amt_left += buffer.copy(incoming_data, curr_ind)`), run
the packet loop, then move any leftover bytes to the start of the
rolling buffer and set `curr_ind = amt_left` (or reset it to 0). -/
def frFeed (s : FrState) (chunk : List Nat) :
    Except JsErr (List (List Nat) × FrState) := do
  let (inc, copied) := copyBytes chunk s.incoming s.curr_ind 0 chunk.length
  let s := { s with incoming := inc, amt_left := s.amt_left + copied }
  let (emitted, s) ← frLoop (2 * s.amt_left + 2) s []
  let s :=
    if s.amt_left > 0 then
      let (inc2, _) := copyBytes s.incoming s.incoming 0 s.curr_ind
        (s.curr_ind + s.amt_left)
      { s with incoming := inc2, curr_ind := s.amt_left }
    else { s with curr_ind := 0 }
  .ok (emitted, s)

/-- A well-formed 15-byte Bowler frame: version 3, broadcast MAC,
method `post` (0x20), namespace id 0, size 4, checksum 0x21, RPC name
`_png`, empty body. -/
def pingFrame : List Nat :=
  [3, 255, 255, 255, 255, 255, 255, 32, 0, 4, 33, 95, 112, 110, 103]

/-- The framer fed `pingFrame` split into a chunk of 8 bytes and a
chunk of 7 bytes, collecting everything it emits. -/
def frRunSplitPing : Except JsErr (List (List Nat)) := do
  let (e1, s1) ← frFeed frInit (pingFrame.take 8)
  let (e2, _) ← frFeed s1 (pingFrame.drop 8)
  .ok (e1 ++ e2)

example :
    frRunSplitPing = .ok [[0, 4, 33, 95, 112, 110, 103, 0, 0, 0, 0]] := rfl

/-- The framer fed the same frame as one whole 15-byte chunk. -/
def frRunWholePing : Except JsErr (List (List Nat)) := do
  let (e1, _) ← frFeed frInit pingFrame
  .ok e1

example : frRunWholePing = .ok [pingFrame] := rfl

/-! ## Response correlation: `device.once` / `device.emit`

`BowlerDevice` inherits Node's `events.EventEmitter`
(`util.inherits(BowlerDevice, EventEmitter)`), and the inbound `data`
handler in `nr_dyio.js` fires
`this.emit(event_name, full_packet, ...)`.  Node's semantics, which
this section embeds: `once(evt, fn)` appends a wrapper to the
per-event listener list; the wrapper removes itself (by identity) and
then calls `fn`; `emit(evt)` takes a snapshot of the current listener
list for `evt` and invokes every wrapper in it, in registration
order — removal during the emit does not shrink the snapshot. -/

/-- A registered one-shot listener: its event key and the identity of
its wrapper closure (unique per registration). -/
abbrev Listener := String × Nat

/-- The listener state of an emitter. -/
structure Emitter where
  listeners : List Listener
deriving Repr, DecidableEq

/-- An emitter with no listeners. -/
def emptyEmitter : Emitter := { listeners := [] }

/-- Models `emitter.once(k, fn)`: appends the wrapper. -/
def onceListener (e : Emitter) (k : String) (id : Nat) : Emitter :=
  { listeners := e.listeners ++ [(k, id)] }

/-- Models `removeListener`: splices out the first wrapper with the
given identity. -/
def removeWrapper : List Listener → Nat → List Listener
  | [], _ => []
  | w :: rest, id => if w.2 = id then rest else w :: removeWrapper rest id

/-- Runs an emit over a snapshot: each wrapper first removes itself
from the live list, then fires (its identity is appended to the list
of invoked continuations). -/
def emitRun : List Listener → List Listener → List Nat × List Listener
  | live, [] => ([], live)
  | live, w :: ws =>
    let live' := removeWrapper live w.2
    let (fired, final) := emitRun live' ws
    (w.2 :: fired, final)

/-- Models `emitter.emit(k, ...)`: snapshot the listeners registered
for `k`, then invoke each. -/
def jsEmit (e : Emitter) (k : String) : List Nat × Emitter :=
  let snapshot := e.listeners.filter (fun w => w.1 = k)
  let (fired, final) := emitRun e.listeners snapshot
  (fired, { listeners := final })

/-- Two one-shot listeners registered for the same response key. -/
def twoPngListeners : Emitter :=
  onceListener (onceListener emptyEmitter "post:bcs.core#_png" 1) "post:bcs.core#_png" 2

example : (jsEmit twoPngListeners "post:bcs.core#_png").1 = [1, 2] := rfl

example : (jsEmit (jsEmit twoPngListeners "post:bcs.core#_png").2 "post:bcs.core#_png").1 = [] := rfl

/-! ## `lib/command_handler.js`: `make_rpc_caller` (lines 139-171) -/

/-- Models the argument-collection step of the returned RPC caller:
`if (arguments.length >= builder.length) args = slice(arguments, 0,
builder.length) else args = slice(arguments)`.  `builderLen` is the
builder function's declared parameter count, which *includes* its
leading assembler parameter. -/
def callerArgs (builderLen : Nat) (argv : List JVal) : List JVal :=
  if argv.length ≥ builderLen then argv.take builderLen else argv

/-- Models the continuation extraction of the has-callback branch:
`var cb = arguments[args.length]` (`none` is `undefined`). -/
def callerExtractCb (builderLen : Nat) (argv : List JVal) : Option JVal :=
  argv.get? (callerArgs builderLen argv).length

/-- The observable outcome of an RPC-caller invocation that does not
throw: the datagram handed to `send_datagram`, the event key used for
`once`, the continuation value registered (in the has-callback
branch), and whether a deferred registrar was returned instead. -/
structure RpcOutcome where
  sent : List Nat
  evt : String
  registeredCb : Option (Option JVal)
  deferred : Bool
deriving Repr, DecidableEq

/-- Models an invocation of the closure produced by
`make_rpc_caller(rpc_name, send_method, recv_method)`: collect `args`,
call `build_packet(send_method, namespace, rpc_name, ...args)`, call
`send_datagram`, then either register
`once(recv_method + ':' + namespace + '#' + rpc_name, cb)` with
`cb = arguments[args.length]`, or return the deferred registrar.
A throw inside `build_packet` propagates: nothing is sent and no
listener is registered. -/
def rpcCall (sendMethod recvMethod ns rpc : String) (builderLen : Nat)
    (argv : List JVal) (mac : MacRaw) : Except JsErr RpcOutcome := do
  let args := callerArgs builderLen argv
  let hasCb := argv.length ≥ builderLen
  let datagram ← build_packet (some sendMethod) (some ns) rpc args mac
  let evt := recvMethod ++ ":" ++ ns ++ "#" ++ rpc
  if hasCb then
    .ok { sent := datagram, evt := evt,
          registeredCb := some (argv.get? args.length), deferred := false }
  else
    .ok { sent := datagram, evt := evt, registeredCb := none, deferred := true }

example :
    rpcCall "get" "post" "bcs.core" "_png" 1 [.fn 0] .broadcast = .error sizeErr := rfl

example : callerExtractCb 1 [.fn 0] = none := rfl

/-! ## `lib/util.js` `extend` and `lib/extra_namespaces.js`
`_import_into_objs`: the registry merge

A registry (`_parsers`, `_builders`, `_rpc_send_methods`,
`_rpc_recv_methods`) is a JS object tree: properties are either
nested namespace objects or non-mergeable entries (parser/builder
functions, method strings/arrays).  `NsVal.leaf` models the latter.
`extend(dest, src)` assigns `dest[prop] = src[prop]` only when
`dest[prop] === undefined`; on an existing property it either recurses
into the sub-objects or leaves the property alone.  (When one side is
a function, the recursion can at most graft properties onto the
function object — the registry binding still holds the same function,
which is what `NsVal.leaf` observes, so those cases are modelled as
leaving the destination unchanged.)  JS property insertion appends at
the end of the enumeration order, and updates keep the position, which
the association-list operations below mirror. -/

/-- A value in a registry object tree. -/
inductive NsVal where
  | leaf (id : Nat)
  | node (entries : List (String × NsVal))

/-- A property read on a registry object (first match). -/
def lookupE : List (String × NsVal) → String → Option NsVal
  | [], _ => none
  | (k', v) :: rest, k => if k' = k then some v else lookupE rest k

/-- A property update on a registry object (keeps the position). -/
def setE : List (String × NsVal) → String → NsVal → List (String × NsVal)
  | [], _, _ => []
  | (k', v) :: rest, k, w =>
    if k' = k then (k', w) :: rest else (k', v) :: setE rest k w

/-- Models `util.extend(dest, src)`: for each property of `src` in
order, add it when absent from `dest`; when present and both sides are
objects, merge recursively; otherwise keep the destination value. -/
def extendObj : List (String × NsVal) → List (String × NsVal) → List (String × NsVal)
  | dest, [] => dest
  | dest, (k, NsVal.leaf i) :: rest =>
    (match lookupE dest k with
     | none => extendObj (dest ++ [(k, NsVal.leaf i)]) rest
     | some _ => extendObj dest rest)
  | dest, (k, NsVal.node se) :: rest =>
    (match lookupE dest k with
     | none => extendObj (dest ++ [(k, NsVal.node se)]) rest
     | some (NsVal.node de) => extendObj (setE dest k (NsVal.node (extendObj de se))) rest
     | some (NsVal.leaf _) => extendObj dest rest)
termination_by _ src => sizeOf src
decreasing_by all_goals (simp_wf <;> omega)

/-- Models `BowlerNamespace._import_into_objs` for one of the four
registry objects (the method treats all four identically): walk the
dot-path of the contribution's `root`, creating `{}` nodes for missing
segments, then `extend` the contribution into the node reached.  When
an existing segment value is a function (`leaf`), the code descends
into the function object and grafts properties onto it, which leaves
every registry binding unchanged. -/
def importIntoObjs : List String → List (String × NsVal) → List (String × NsVal) →
    List (String × NsVal)
  | [], reg, contrib => extendObj reg contrib
  | seg :: rest, reg, contrib =>
    match lookupE reg seg with
    | none => reg ++ [(seg, NsVal.node (importIntoObjs rest [] contrib))]
    | some (NsVal.node sub) => setE reg seg (NsVal.node (importIntoObjs rest sub contrib))
    | some (NsVal.leaf _) => reg

/-- Resolution of a dotted path in a registry tree (the empty path
names the tree itself). -/
def lookupPath : List (String × NsVal) → List String → Option NsVal
  | obj, [] => some (.node obj)
  | obj, seg :: rest =>
    match lookupE obj seg with
    | some (NsVal.node sub) => lookupPath sub rest
    | some (NsVal.leaf i) => if rest.isEmpty then some (.leaf i) else none
    | none => none

/-- One registry value refines another when every binding of the first
is still present in the second with a refining value: leaves are kept
identical, nodes may only gain entries.  The existence part and the
pointwise part of the node case are separate premises (a recursive
occurrence may not sit under an existential in an inductive
predicate). -/
inductive RefinesVal : NsVal → NsVal → Prop where
  | leaf (i : Nat) : RefinesVal (.leaf i) (.leaf i)
  | node (de de' : List (String × NsVal))
      (hex : ∀ k dv, lookupE de k = some dv → ∃ dv', lookupE de' k = some dv')
      (hpt : ∀ k dv dv', lookupE de k = some dv → lookupE de' k = some dv' →
        RefinesVal dv dv') :
      RefinesVal (.node de) (.node de')

/-- Object-level refinement: every binding persists, refined. -/
def RefinesObj (de de' : List (String × NsVal)) : Prop :=
  ∀ k dv, lookupE de k = some dv → ∃ dv', lookupE de' k = some dv' ∧ RefinesVal dv dv'

theorem refinesVal_node_of_obj {de de' : List (String × NsVal)}
    (h : RefinesObj de de') : RefinesVal (.node de) (.node de') := by
  refine .node de de' (fun k dv hk => ?_) (fun k dv dv' hk hk' => ?_)
  · obtain ⟨dv', h1, _⟩ := h k dv hk
    exact ⟨dv', h1⟩
  · obtain ⟨dv'', h1, h2⟩ := h k dv hk
    rw [hk'] at h1
    cases h1
    exact h2

theorem refinesObj_of_node {de de' : List (String × NsVal)}
    (h : RefinesVal (.node de) (.node de')) : RefinesObj de de' := by
  cases h with
  | node _ _ hex hpt =>
    intro k dv hk
    obtain ⟨dv', h1⟩ := hex k dv hk
    exact ⟨dv', h1, hpt k dv dv' hk h1⟩

theorem sizeOf_of_lookupE :
    ∀ (l : List (String × NsVal)) (k : String) (v : NsVal),
      lookupE l k = some v → sizeOf v < sizeOf l := by
  intro l
  induction l with
  | nil => intro k v h; simp [lookupE] at h
  | cons e rest ih =>
    intro k v h
    obtain ⟨k', v'⟩ := e
    by_cases hk : k' = k
    · simp only [lookupE, hk, if_pos] at h
      cases h
      simp only [List.cons.sizeOf_spec, Prod.mk.sizeOf_spec]
      omega
    · simp only [lookupE, hk, if_neg, not_false_iff] at h
      have := ih k v h
      simp only [List.cons.sizeOf_spec]
      omega

theorem refinesVal_refl_aux :
    ∀ (n : Nat) (v : NsVal), sizeOf v < n → RefinesVal v v := by
  intro n
  induction n with
  | zero => intro v h; exact absurd h (Nat.not_lt_zero _)
  | succ n ih =>
    intro v h
    cases v with
    | leaf i => exact .leaf i
    | node de =>
      have hsz : sizeOf (NsVal.node de) = 1 + sizeOf de := by simp
      refine refinesVal_node_of_obj (fun k dv hk => ?_)
      have h1 : sizeOf dv < sizeOf de := sizeOf_of_lookupE de k dv hk
      exact ⟨dv, hk, ih dv (by omega)⟩

theorem refinesVal_refl (v : NsVal) : RefinesVal v v :=
  refinesVal_refl_aux (sizeOf v + 1) v (Nat.lt_succ_self _)

theorem refinesVal_trans_aux :
    ∀ (n : Nat) (a b c : NsVal), sizeOf a < n →
      RefinesVal a b → RefinesVal b c → RefinesVal a c := by
  intro n
  induction n with
  | zero => intro a _ _ h; exact absurd h (Nat.not_lt_zero _)
  | succ n ih =>
    intro a b c h hab hbc
    cases hab with
    | leaf i => exact hbc
    | node de de' hex hpt =>
      cases hbc with
      | node _ de'' hex' hpt' =>
        have hsz : sizeOf (NsVal.node de) = 1 + sizeOf de := by simp
        refine refinesVal_node_of_obj (fun k dv hk => ?_)
        obtain ⟨dv', h1⟩ := hex k dv hk
        obtain ⟨dv'', h2⟩ := hex' k dv' h1
        have h5 : sizeOf dv < sizeOf de := sizeOf_of_lookupE de k dv hk
        exact ⟨dv'', h2, ih dv dv' dv'' (by omega) (hpt k dv dv' hk h1)
          (hpt' k dv' dv'' h1 h2)⟩

theorem refinesVal_trans {a b c : NsVal}
    (hab : RefinesVal a b) (hbc : RefinesVal b c) : RefinesVal a c :=
  refinesVal_trans_aux (sizeOf a + 1) a b c (Nat.lt_succ_self _) hab hbc

theorem refinesObj_refl (l : List (String × NsVal)) : RefinesObj l l :=
  fun _ dv h => ⟨dv, h, refinesVal_refl dv⟩

theorem refinesObj_trans {a b c : List (String × NsVal)}
    (hab : RefinesObj a b) (hbc : RefinesObj b c) : RefinesObj a c := by
  intro k dv h
  obtain ⟨dv', h1, h2⟩ := hab k dv h
  obtain ⟨dv'', h3, h4⟩ := hbc k dv' h1
  exact ⟨dv'', h3, refinesVal_trans h2 h4⟩

theorem lookupE_append (l l2 : List (String × NsVal)) (k : String) :
    lookupE (l ++ l2) k =
      match lookupE l k with
      | some v => some v
      | none => lookupE l2 k := by
  induction l with
  | nil => simp [lookupE]
  | cons e rest ih =>
    obtain ⟨k', v'⟩ := e
    by_cases hk : k' = k <;> simp [lookupE, hk, ih]

theorem lookupE_append_some {l : List (String × NsVal)} (l2 : List (String × NsVal))
    {k : String} {v : NsVal} (h : lookupE l k = some v) :
    lookupE (l ++ l2) k = some v := by
  rw [lookupE_append, h]

theorem lookupE_append_none {l : List (String × NsVal)} (l2 : List (String × NsVal))
    {k : String} (h : lookupE l k = none) :
    lookupE (l ++ l2) k = lookupE l2 k := by
  rw [lookupE_append, h]

theorem lookupE_setE_self {l : List (String × NsVal)} {k : String} {v : NsVal}
    (w : NsVal) (h : lookupE l k = some v) :
    lookupE (setE l k w) k = some w := by
  induction l with
  | nil => simp [lookupE] at h
  | cons e rest ih =>
    obtain ⟨k', v'⟩ := e
    by_cases hk : k' = k
    · simp [lookupE, setE, hk]
    · simp only [lookupE, hk, if_neg, not_false_iff] at h
      simp [lookupE, setE, hk, ih h]

theorem lookupE_setE_ne {l : List (String × NsVal)} {k k' : String} (w : NsVal)
    (h : k' ≠ k) : lookupE (setE l k w) k' = lookupE l k' := by
  induction l with
  | nil => simp [setE]
  | cons e rest ih =>
    obtain ⟨k'', v''⟩ := e
    by_cases hk : k'' = k
    · subst hk
      have hne : ¬ k'' = k' := fun hc => h hc.symm
      simp [setE, lookupE, hne]
    · by_cases hk2 : k'' = k'
      · subst hk2
        simp [setE, lookupE, hk]
      · simp [setE, lookupE, hk, hk2, ih]

theorem refinesObj_append (l : List (String × NsVal)) (e : String × NsVal) :
    RefinesObj l (l ++ [e]) :=
  fun _ dv h => ⟨dv, lookupE_append_some _ h, refinesVal_refl dv⟩

theorem refinesObj_setE {l : List (String × NsVal)} {k : String} {dv : NsVal}
    (w : NsVal) (h : lookupE l k = some dv) (hw : RefinesVal dv w) :
    RefinesObj l (setE l k w) := by
  intro k' dv' h'
  by_cases hk : k' = k
  · subst hk
    rw [h] at h'
    cases h'
    exact ⟨w, lookupE_setE_self w h, hw⟩
  · exact ⟨dv', by rw [lookupE_setE_ne w hk]; exact h', refinesVal_refl dv'⟩

theorem extendObj_nil (dest : List (String × NsVal)) : extendObj dest [] = dest := by
  rw [extendObj]

theorem extendObj_cons_absent {dest : List (String × NsVal)} {k : String}
    (sv : NsVal) (rest : List (String × NsVal)) (h : lookupE dest k = none) :
    extendObj dest ((k, sv) :: rest) = extendObj (dest ++ [(k, sv)]) rest := by
  cases sv <;> rw [extendObj, h]

theorem extendObj_cons_leaf_present {dest : List (String × NsVal)} {k : String}
    {dv : NsVal} (i : Nat) (rest : List (String × NsVal))
    (h : lookupE dest k = some dv) :
    extendObj dest ((k, NsVal.leaf i) :: rest) = extendObj dest rest := by
  rw [extendObj, h]

theorem extendObj_cons_node_leaf {dest : List (String × NsVal)} {k : String}
    {j : Nat} (se rest : List (String × NsVal))
    (h : lookupE dest k = some (NsVal.leaf j)) :
    extendObj dest ((k, NsVal.node se) :: rest) = extendObj dest rest := by
  rw [extendObj, h]

theorem extendObj_cons_node_node {dest : List (String × NsVal)} {k : String}
    {de : List (String × NsVal)} (se rest : List (String × NsVal))
    (h : lookupE dest k = some (NsVal.node de)) :
    extendObj dest ((k, NsVal.node se) :: rest) =
      extendObj (setE dest k (NsVal.node (extendObj de se))) rest := by
  rw [extendObj, h]

theorem extend_refines_aux :
    ∀ (n : Nat) (src dest : List (String × NsVal)), sizeOf src < n →
      RefinesObj dest (extendObj dest src) := by
  intro n
  induction n with
  | zero => intro src _ h; exact absurd h (Nat.not_lt_zero _)
  | succ n ih =>
    intro src dest h
    match src with
    | [] =>
      rw [extendObj_nil]
      exact refinesObj_refl dest
    | (k, NsVal.leaf i) :: rest =>
      have hrest : sizeOf rest < n := by
        simp only [List.cons.sizeOf_spec, Prod.mk.sizeOf_spec] at h; omega
      cases hl : lookupE dest k with
      | none =>
        rw [extendObj_cons_absent _ rest hl]
        exact refinesObj_trans (refinesObj_append dest _) (ih rest _ hrest)
      | some dv =>
        rw [extendObj_cons_leaf_present i rest hl]
        exact ih rest dest hrest
    | (k, NsVal.node se) :: rest =>
      have hrest : sizeOf rest < n := by
        simp only [List.cons.sizeOf_spec, Prod.mk.sizeOf_spec,
          NsVal.node.sizeOf_spec] at h; omega
      have hse : sizeOf se < n := by
        simp only [List.cons.sizeOf_spec, Prod.mk.sizeOf_spec,
          NsVal.node.sizeOf_spec] at h; omega
      cases hl : lookupE dest k with
      | none =>
        rw [extendObj_cons_absent _ rest hl]
        exact refinesObj_trans (refinesObj_append dest _) (ih rest _ hrest)
      | some dv =>
        cases dv with
        | leaf j =>
          rw [extendObj_cons_node_leaf se rest hl]
          exact ih rest dest hrest
        | node de =>
          rw [extendObj_cons_node_node se rest hl]
          refine refinesObj_trans (refinesObj_setE _ hl ?_) (ih rest _ hrest)
          exact refinesVal_node_of_obj (ih se de hse)

theorem extend_refines (src dest : List (String × NsVal)) :
    RefinesObj dest (extendObj dest src) :=
  extend_refines_aux (sizeOf src + 1) src dest (Nat.lt_succ_self _)

theorem import_refines :
    ∀ (path : List String) (reg contrib : List (String × NsVal)),
      RefinesObj reg (importIntoObjs path reg contrib) := by
  intro path
  induction path with
  | nil => intro reg contrib; exact extend_refines contrib reg
  | cons seg rest ih =>
    intro reg contrib
    rw [importIntoObjs]
    cases hl : lookupE reg seg with
    | none =>
      exact refinesObj_append reg _
    | some dv =>
      cases dv with
      | leaf i => exact refinesObj_refl reg
      | node sub =>
        exact refinesObj_setE _ hl (refinesVal_node_of_obj (ih sub contrib))

theorem refines_lookupPath_leaf :
    ∀ (p : List String) (obj obj' : List (String × NsVal)) (i : Nat),
      RefinesObj obj obj' → lookupPath obj p = some (.leaf i) →
      lookupPath obj' p = some (.leaf i) := by
  intro p
  induction p with
  | nil =>
    intro obj obj' i _ h
    simp [lookupPath] at h
  | cons seg rest ih =>
    intro obj obj' i href h
    rw [lookupPath] at h
    split at h
    · rename_i sub heq
      obtain ⟨dv', h1, h2⟩ := href seg _ heq
      cases h2 with
      | node _ de' hex hpt =>
        rw [lookupPath, h1]
        exact ih sub de' i (refinesObj_of_node (.node sub de' hex hpt)) h
    · rename_i j heq
      obtain ⟨dv', h1, h2⟩ := href seg _ heq
      cases h2 with
      | leaf _ =>
        rw [lookupPath, h1]
        exact h
    · exact absurd h (by simp)

theorem extend_lookup_of_no_key :
    ∀ (src dest : List (String × NsVal)) (k : String),
      (∀ e ∈ src, e.1 ≠ k) →
      lookupE (extendObj dest src) k = lookupE dest k := by
  intro src
  induction src with
  | nil => intro dest k _; rw [extendObj_nil]
  | cons e rest ih =>
    intro dest k hk
    obtain ⟨k0, sv0⟩ := e
    have hk0 : k0 ≠ k := hk (k0, sv0) (List.mem_cons_self _ _)
    have hrest : ∀ e ∈ rest, e.1 ≠ k := fun e he => hk e (List.mem_cons_of_mem _ he)
    have happ : lookupE (dest ++ [(k0, sv0)]) k = lookupE dest k := by
      rw [lookupE_append]
      cases hl : lookupE dest k with
      | none => simp [lookupE, hk0]
      | some v => rfl
    cases hl : lookupE dest k0 with
    | none =>
      rw [extendObj_cons_absent _ rest hl, ih _ k hrest, happ]
    | some dv =>
      cases sv0 with
      | leaf i =>
        rw [extendObj_cons_leaf_present i rest hl, ih _ k hrest]
      | node se =>
        cases dv with
        | leaf j =>
          rw [extendObj_cons_node_leaf se rest hl, ih _ k hrest]
        | node de =>
          rw [extendObj_cons_node_node se rest hl, ih _ k hrest,
            lookupE_setE_ne _ (fun hc => hk0 hc.symm)]

theorem extend_adds :
    ∀ (src dest : List (String × NsVal)) (k : String) (sv : NsVal),
      (src.map Prod.fst).Nodup → lookupE src k = some sv →
      lookupE dest k = none →
      lookupE (extendObj dest src) k = some sv := by
  intro src
  induction src with
  | nil => intro dest k sv _ h _; simp [lookupE] at h
  | cons e rest ih =>
    obtain ⟨k0, sv0⟩ := e
    intro dest k sv hnodup hsrc hdest
    simp only [List.map_cons, List.nodup_cons] at hnodup
    obtain ⟨hk0notin, hrestnodup⟩ := hnodup
    by_cases hk : k0 = k
    · subst hk
      have hsv : sv0 = sv := by simpa [lookupE] using hsrc
      subst hsv
      have hnokey : ∀ e ∈ rest, e.1 ≠ k0 := by
        intro e he hc
        exact hk0notin (hc ▸ List.mem_map_of_mem Prod.fst he)
      have happ : lookupE (dest ++ [(k0, sv0)]) k0 = some sv0 := by
        rw [lookupE_append_none _ hdest]
        simp [lookupE]
      rw [extendObj_cons_absent _ rest hdest,
        extend_lookup_of_no_key rest _ k0 hnokey, happ]
    · have hsrc' : lookupE rest k = some sv := by
        simpa [lookupE, hk] using hsrc
      have hne : lookupE (dest ++ [(k0, sv0)]) k = none := by
        rw [lookupE_append_none _ hdest]
        simp [lookupE, hk]
      cases hl : lookupE dest k0 with
      | none =>
        rw [extendObj_cons_absent _ rest hl]
        exact ih _ k sv hrestnodup hsrc' hne
      | some dv =>
        cases sv0 with
        | leaf i =>
          rw [extendObj_cons_leaf_present i rest hl]
          exact ih _ k sv hrestnodup hsrc' hdest
        | node se =>
          cases dv with
          | leaf j =>
            rw [extendObj_cons_node_leaf se rest hl]
            exact ih _ k sv hrestnodup hsrc' hdest
          | node de =>
            rw [extendObj_cons_node_node se rest hl]
            refine ih _ k sv hrestnodup hsrc' ?_
            rw [lookupE_setE_ne _ (fun hc => hk hc.symm)]
            exact hdest

/-! ## FIFO behaviour of `emit` over once-listeners -/

theorem emitRun_fired :
    ∀ (snap live : List Listener), (emitRun live snap).1 = snap.map Prod.snd := by
  intro snap
  induction snap with
  | nil => intro live; rfl
  | cons w ws ih => intro live; simp [emitRun, ih]

theorem emitRun_cons_skip :
    ∀ (snap live : List Listener) (x : Listener),
      (∀ w ∈ snap, w.2 ≠ x.2) →
      (emitRun (x :: live) snap).2 = x :: (emitRun live snap).2 := by
  intro snap
  induction snap with
  | nil => intro live x _; rfl
  | cons w ws ih =>
    intro live x hx
    have hw : w.2 ≠ x.2 := hx w (List.mem_cons_self _ _)
    have hws : ∀ w' ∈ ws, w'.2 ≠ x.2 := fun w' hw' => hx w' (List.mem_cons_of_mem _ hw')
    simp only [emitRun, removeWrapper]
    rw [if_neg (fun hc => hw hc.symm)]
    simp [ih _ x hws]

theorem emitRun_state (k : String) :
    ∀ (live : List Listener), (live.map Prod.snd).Nodup →
      (emitRun live (live.filter (fun w => w.1 = k))).2 =
        live.filter (fun w => ¬ w.1 = k) := by
  intro live
  induction live with
  | nil => intro _; rfl
  | cons x rest ih =>
    intro hnodup
    simp only [List.map_cons, List.nodup_cons] at hnodup
    obtain ⟨hxnotin, hrest⟩ := hnodup
    have hsnap : ∀ w ∈ rest.filter (fun w => w.1 = k), w.2 ≠ x.2 := by
      intro w hw hc
      exact hxnotin (hc ▸ List.mem_map_of_mem Prod.snd (List.mem_of_mem_filter hw))
    by_cases hk : x.1 = k
    · rw [List.filter_cons_of_pos (by simpa using hk)]
      have hstep : (emitRun (x :: rest) (x :: rest.filter (fun w => w.1 = k))).2
          = (emitRun (removeWrapper (x :: rest) x.2) (rest.filter (fun w => w.1 = k))).2 := rfl
      rw [hstep]
      have hrm : removeWrapper (x :: rest) x.2 = rest := by simp [removeWrapper]
      rw [hrm, ih hrest, List.filter_cons_of_neg (by simpa using hk)]
    · rw [List.filter_cons_of_neg (by simpa using hk)]
      rw [emitRun_cons_skip _ rest x hsnap, ih hrest]
      rw [List.filter_cons_of_pos (by simpa using hk)]

/-! ## Claim theorems -/

/-- Claim C1, counterexample: with MAC `'broadcast'`, the device's MAC
bytes are six `0x00`, not six `0xFF`, and dispatching `bcs.core._png`
hands the transport nothing at all — `build_packet` throws at the
first header write — so the claimed 15-byte frame
`03 FF FF FF FF FF FF 10 00 04 0A '_png'` is never produced. -/
theorem png_broadcast_counterexample :
    mac_address_bytes .broadcast = [0, 0, 0, 0, 0, 0]
    ∧ mac_address_bytes .broadcast ≠ [255, 255, 255, 255, 255, 255]
    ∧ build_packet (some "get") (some "bcs.core") "_png" [] .broadcast = .error sizeErr :=
  ⟨rfl, by decide, rfl⟩

/-- Claim C1, amended: `mac_address_bytes` for `'broadcast'` is the
deliberate link-local zero MAC `[0,0,0,0,0,0]`; sending
`bcs.core._png` through `build_packet` throws
`Cannot write ints greater than 32 bits in size!` before any byte
reaches the transport; and even for the claimed all-0xFF prefix the
low byte of the sum of bytes 0..9 is `0x11`, not the claimed `0x0A`. -/
theorem png_broadcast_actual :
    mac_address_bytes .broadcast = [0, 0, 0, 0, 0, 0]
    ∧ build_packet (some "get") (some "bcs.core") "_png" [] .broadcast
        = .error (.jsError "Cannot write ints greater than 32 bits in size!")
    ∧ make_checksum [3, 255, 255, 255, 255, 255, 255, 16, 0, 4] = .ok 17
    ∧ (17 : Nat) ≠ 10 :=
  ⟨rfl, rfl, rfl, by decide⟩

/-- Claim C2, code bug: `build_packet('get','bcs.core','_nms', 0)`
throws before assembling anything, and the value the code would place
in the size byte is `body_assembler.length + 4`, where the body
assembler for the one-byte `_nms` body already has `length = 16`
(its ranges are shifted by the 15-byte header offset), giving 20
rather than the specified `4 + body_len = 5`. -/
theorem size_byte_code_bug :
    build_packet (some "get") (some "bcs.core") "_nms" [.num 0] .broadcast = .error sizeErr
    ∧ (nmsBuilder (mkPAsm (some 15)) [.num 0]).map PAsm.length = .ok 16
    ∧ (16 + 4 : Int) = 20
    ∧ (20 : Int) ≠ 4 + 1 :=
  ⟨rfl, rfl, rfl, by decide⟩

/-- Claim C3, code bug: no packet ever carries a checksum because
`build_packet` throws at the first header write and `assemble()`
itself references the unbound identifier `instructions`; the cited
helper `make_checksum` does compute the low byte of the byte sum
(here on the header prefix `03 00x6 10 00 04` that the zero-MAC
device would produce: `3 + 0x10 + 0x04 = 23`). -/
theorem checksum_code_bug :
    build_packet (some "get") (some "bcs.core") "_png" [] .broadcast = .error sizeErr
    ∧ paAssemble (mkPAsm none) = .error (.referenceError "instructions is not defined")
    ∧ make_checksum [3, 0, 0, 0, 0, 0, 0, 16, 0, 4] = .ok 23
    ∧ 23 = (3 + 16 + 0 + 4) % 256 :=
  ⟨rfl, rfl, rfl, by decide⟩

/-- Claim C4, code bug: on the body `"bcs.core;1.0.0\x00\x01"` the
`_nms` parser does not return
`{name: "bcs.core", version_str: "1.0.0", num_namespaces: 1}`:
`src.bytes()` hits the broken all-bytes guard and works on an empty
buffer, the null scan never stops (`byte == '\x5c0'` is always false),
and the name/version slices use `indexOf(';') - 3` and `len - 4`; the
parser yields empty strings and `num_namespaces = 99` (the byte at
index 1). -/
theorem nms_parser_code_bug :
    nmsParse nmsBody
      = .ok { raw_str := "", name := "", version_str := "", num_namespaces := 99 }
    ∧ ("" : String) ≠ "bcs.core"
    ∧ (99 : Int) ≠ 1 :=
  ⟨rfl, by decide, by decide⟩

/-- Claim C5, counterexample: with two one-shot listeners registered
for the same response key, a single matching inbound event invokes
both continuations (`[1, 2]`), not exactly the earliest one, and a
second matching event invokes none. -/
theorem once_fifo_counterexample :
    (jsEmit twoPngListeners "post:bcs.core#_png").1 = [1, 2]
    ∧ (jsEmit twoPngListeners "post:bcs.core#_png").1 ≠ [1]
    ∧ (jsEmit (jsEmit twoPngListeners "post:bcs.core#_png").2 "post:bcs.core#_png").1 = [] :=
  ⟨rfl, by decide, rfl⟩

/-- Claim C5, amended: one matching inbound event invokes every
one-shot listener currently registered for that key, in FIFO
registration order, and removes them all; listeners for other keys
are untouched. -/
theorem emit_fires_all_fifo (e : Emitter) (k : String)
    (h : (e.listeners.map Prod.snd).Nodup) :
    (jsEmit e k).1 = (e.listeners.filter (fun w => w.1 = k)).map Prod.snd
    ∧ (jsEmit e k).2.listeners = e.listeners.filter (fun w => ¬ w.1 = k) := by
  constructor
  · show (emitRun e.listeners (e.listeners.filter (fun w => w.1 = k))).1 = _
    exact emitRun_fired _ _
  · show (emitRun e.listeners (e.listeners.filter (fun w => w.1 = k))).2 = _
    exact emitRun_state k e.listeners h

/-- Witness for `emit_fires_all_fifo` at the two-listener emitter. -/
theorem emit_fires_all_fifo_witness :
    (twoPngListeners.listeners.map Prod.snd).Nodup
    ∧ ((jsEmit twoPngListeners "post:bcs.core#_png").1
        = (twoPngListeners.listeners.filter
            (fun w => w.1 = "post:bcs.core#_png")).map Prod.snd
      ∧ (jsEmit twoPngListeners "post:bcs.core#_png").2.listeners
        = twoPngListeners.listeners.filter (fun w => ¬ w.1 = "post:bcs.core#_png")) :=
  ⟨by decide, emit_fires_all_fifo twoPngListeners "post:bcs.core#_png" (by decide)⟩

/-- Claim C6, code bug: calling the `_png` handle (builder arity 0)
with one continuation argument throws inside `build_packet`, so no
listener is ever registered and no deferred is returned; moreover the
caller's own argument slicing forwards the continuation to the
builder (`args = [cb]`) and reads the would-be continuation at
`arguments[args.length]`, one past the end — `undefined`. -/
theorem rpc_caller_code_bug :
    rpcCall "get" "post" "bcs.core" "_png" 1 [.fn 0] .broadcast = .error sizeErr
    ∧ callerArgs 1 [.fn 0] = [.fn 0]
    ∧ callerExtractCb 1 [.fn 0] = none :=
  ⟨rfl, rfl, rfl⟩

/-- Claim C7, code bug: a single well-formed 15-byte frame delivered
as two chunks of 8 and 7 bytes makes the framer emit one 11-byte
buffer of the wrong bytes — after the leftover compaction the code
reads the size byte at the stale cursor (`curr_ind + 9 = 17`, a zero)
and copies from offset 8 — dropping the frame's first 8 bytes, whereas
the same frame in one chunk is emitted intact. -/
theorem framing_fragmentation_code_bug :
    frRunSplitPing = .ok [[0, 4, 33, 95, 112, 110, 103, 0, 0, 0, 0]]
    ∧ [[0, 4, 33, 95, 112, 110, 103, 0, 0, 0, 0]] ≠ [pingFrame]
    ∧ frRunWholePing = .ok [pingFrame] :=
  ⟨rfl, by decide, rfl⟩

/-- Claim C8, code bug: `data_types.Int32Array.serialize` throws a
`ReferenceError` on every input — its body reads the undeclared
identifier `ab` while its parameter is named `input` — so the value
`[1, -2, 3]` is never serialized; the type's own `get_width` and
`deserialize` agree with the claimed 13-byte wire shape
`03 00 00 00 01 FF FF FF FE 00 00 00 03`. -/
theorem int32array_serialize_code_bug :
    int32ArraySerialize [1, -2, 3] (List.replicate 13 0) 0
      = .error (.referenceError "ab is not defined")
    ∧ int32ArrayGetWidth [1, -2, 3] = 13
    ∧ int32ArrayDeserialize [3, 0, 0, 0, 1, 255, 255, 255, 254, 0, 0, 0, 3] 0
      = ([1, -2, 3], 13) :=
  ⟨rfl, rfl, by decide⟩

/-- Claim C9, confirmed: importing a namespace contribution
(`supports_namespace` / `import_into`, i.e. `_import_into_objs` over
`util.extend`) never replaces an existing entry: every leaf entry
reachable in the registry before the import is still bound to the same
leaf afterwards (the merge being recursive over sub-namespace
objects), and a contribution entry whose key is absent from the
destination is added by the merge. -/
theorem import_never_replaces :
    (∀ (root : List String) (reg contrib : List (String × NsVal))
        (p : List String) (i : Nat),
      lookupPath reg p = some (.leaf i) →
      lookupPath (importIntoObjs root reg contrib) p = some (.leaf i))
    ∧ (∀ (dest src : List (String × NsVal)) (k : String) (sv : NsVal),
      (src.map Prod.fst).Nodup → lookupE dest k = none →
      lookupE src k = some sv →
      lookupE (extendObj dest src) k = some sv) :=
  ⟨fun root reg contrib p i h =>
      refines_lookupPath_leaf p reg _ i (import_refines root reg contrib) h,
   fun dest src k sv hn hd hs => extend_adds src dest k sv hn hs hd⟩

/-- A small registry: `bcs.core._png` bound to leaf 1. -/
def regSample : List (String × NsVal) :=
  [("bcs", .node [("core", .node [("_png", .leaf 1)])])]

/-- A contribution colliding on `_png` and adding `_nms`. -/
def contribSample : List (String × NsVal) :=
  [("_png", .leaf 2), ("_nms", .leaf 3)]

/-- Witness for `import_never_replaces`: importing `contribSample` at
`bcs.core` keeps the existing `_png` leaf, and extending an empty
object adds the non-colliding `_nms` entry. -/
theorem import_never_replaces_witness :
    (lookupPath regSample ["bcs", "core", "_png"] = some (.leaf 1)
      ∧ lookupPath (importIntoObjs ["bcs", "core"] regSample contribSample)
          ["bcs", "core", "_png"] = some (.leaf 1))
    ∧ ((contribSample.map Prod.fst).Nodup
      ∧ lookupE (extendObj [] contribSample) "_nms" = some (.leaf 3)) :=
  ⟨⟨rfl, import_never_replaces.1 ["bcs", "core"] regSample contribSample
      ["bcs", "core", "_png"] 1 rfl⟩,
   ⟨by decide, import_never_replaces.2 [] contribSample "_nms" (.leaf 3)
      (by decide) rfl rfl⟩⟩

/-- Claim C10, counterexample: a truthy but unknown method name such
as `'put'` is not rewritten to `'get'` — its wire-code lookup yields
`undefined`, not `0x10` — and no packet is built at all (the call
throws at the first header write). -/
theorem method_defaulting_counterexample :
    BOWLER_METHODS_HR.lookup "put" = none
    ∧ methodCodeVal "put" = .undefined
    ∧ methodCodeVal "put" ≠ .num 0x10
    ∧ build_packet (some "put") (some "bcs.core") "_png" [] .broadcast = .error sizeErr :=
  ⟨rfl, rfl, by decide, rfl⟩

/-- Claim C10, amended: the defaulting assignments rewrite only falsy
arguments (`none`), mapping a falsy method to `'get'` and a falsy
namespace to `'bcs.core'` before any lookup — and `build_packet`
raises neither an UnsupportedMethod nor an UndefinedNamespace error
for any method/namespace/argument combination: every call fails with
the same `fromInt` size error at the first header write, before any
packet is built. -/
theorem method_defaulting_actual :
    defaultedMethod none = "get"
    ∧ defaultedNamespace none = "bcs.core"
    ∧ methodCodeVal "get" = .num 0x10
    ∧ (∀ (m ns : Option String) (args : List JVal) (mac : MacRaw),
        build_packet m ns "_png" args mac = .error sizeErr) :=
  ⟨rfl, rfl, rfl, fun _ _ _ _ => rfl⟩

end NodeBowler
